import Mathlib

/-!
Verification of the differential-equation simulation library
(`src/models.py`, `src/utils.py`).

All Python floats are embedded as exact rationals (every IEEE float is a
rational number); the transcendental results of `np.exp` live in `ℝ`,
so model evaluation functions take rational parameters and a rational
time and return a real number.  Purely rational computations (the
statistics engine and the forward-Euler integration loop of the mixing
model) stay in `ℚ` and are executable.
-/

/-! ## StatisticsEngine (`Modelo.get_estadisticas`, src/models.py) -/


/-- Record of the statistics dictionary built by `Modelo.get_estadisticas`. -/
structure Estadisticas where
  prom : ℚ
  maxi : ℚ
  mini : ℚ
  tasa_cambio : ℚ
  tiempo_equilibrio : ℚ
deriving Repr, DecidableEq

/-- `np.diff`: consecutive differences of a list. -/
def npDiff (l : List ℚ) : List ℚ :=
  (l.zip l.tail).map fun p => p.2 - p.1

/-- `np.mean` of a nonempty list (0 on the empty list, which the code guards). -/
def npMean (l : List ℚ) : ℚ :=
  l.sum / l.length

/-- `np.max` of a nonempty list (0 on the empty list, which the code guards). -/
def npMax : List ℚ → ℚ
  | [] => 0
  | a :: r => r.foldl max a

/-- `np.min` of a nonempty list (0 on the empty list, which the code guards). -/
def npMin : List ℚ → ℚ
  | [] => 0
  | a :: r => r.foldl min a

/-- The per-pair steadiness test of the equilibrium detector: the relative
change of a consecutive sample pair is below 1 percent, or the absolute
change is below 1e-6.  The scale is the magnitude of the second sample,
floored at 1e-10 (`np.maximum(np.abs(y_values[1:]), 1e-10)`). -/
def steadyPair (a b : ℚ) : Prop :=
  |b - a| / max |b| (1 / 10 ^ 10) < 1 / 100 ∨ |b - a| < 1 / 10 ^ 6

instance (a b : ℚ) : Decidable (steadyPair a b) := by
  unfold steadyPair; infer_instance

/-- Index of the first consecutive pair satisfying `steadyPair`
(`np.where(is_steady)[0][0]` on the diff array). -/
def firstSteadyIdx : List ℚ → Option ℕ
  | a :: b :: rest =>
    if steadyPair a b then some 0 else (firstSteadyIdx (b :: rest)).map Nat.succ
  | _ => none

/-- `tasa_cambio`: mean of the pairwise slopes over consecutive pairs with
positive time step (`delta_y[valid_dt] / delta_t[valid_dt]`); `0.0` when
fewer than two points or no valid step exists.  Over `ℚ` every ratio is
finite, so the `np.isfinite` filter keeps everything. -/
def tasaCambio (ts ys : List ℚ) : ℚ :=
  if 1 < ys.length ∧ 1 < ts.length then
    let pares := ((npDiff ys).zip (npDiff ts)).filter fun p => 0 < p.2
    if pares.length = 0 then 0
    else npMean (pares.map fun p => p.1 / p.2)
  else 0

/-- `tiempo_equilibrio`: defaults to the last time value; when the
trajectory has more than two samples and some consecutive change is
steady, the time at the sample just after the first steady difference
(`t_values[first_steady + 1]`, guarded by the length check of the code). -/
def tiempoEquilibrio (ts ys : List ℚ) : ℚ :=
  let porDefecto := ts.getLastD 0
  if 2 < ys.length then
    match firstSteadyIdx ys with
    | some i => if i + 1 < ts.length then ts.getD (i + 1) 0 else porDefecto
    | none => porDefecto
  else porDefecto

/-- `Modelo.get_estadisticas`: `None` (the empty dict) when either input
sequence is empty, otherwise the statistics record. -/
def getEstadisticas (ts ys : List ℚ) : Option Estadisticas :=
  if ys.length = 0 ∨ ts.length = 0 then none
  else some
    { prom := npMean ys
      maxi := npMax ys
      mini := npMin ys
      tasa_cambio := tasaCambio ts ys
      tiempo_equilibrio := tiempoEquilibrio ts ys }

/-! ## CrecimientoExponencial (src/models.py) -/


/-- Parameters of `CrecimientoExponencial`; its constructor performs no
validation. -/
structure CrecimientoExponencial where
  P0 : ℚ
  k : ℚ

/-- `CrecimientoExponencial.calcular`: `P0 * np.exp(k * t)`. -/
noncomputable def CrecimientoExponencial.calcular
    (m : CrecimientoExponencial) (t : ℚ) : ℝ :=
  (m.P0 : ℝ) * Real.exp ((m.k : ℝ) * (t : ℝ))

/-! ## EnfriamientoNewton (src/models.py) -/


/-- Parameters of `EnfriamientoNewton`. -/
structure EnfriamientoNewton where
  T0 : ℚ
  Ta : ℚ
  k : ℚ

/-- The constructor of `EnfriamientoNewton` raises unless `k > 0` and
`T0 ≠ Ta`. -/
def EnfriamientoNewton.Valid (m : EnfriamientoNewton) : Prop :=
  0 < m.k ∧ m.T0 ≠ m.Ta

instance (m : EnfriamientoNewton) : Decidable m.Valid := by
  unfold EnfriamientoNewton.Valid; infer_instance

/-- `EnfriamientoNewton.calcular`: `T0` for `t < 0`, otherwise
`Ta + (T0 - Ta) * np.exp(-k * t)`. -/
noncomputable def EnfriamientoNewton.calcular
    (m : EnfriamientoNewton) (t : ℚ) : ℝ :=
  if t < 0 then (m.T0 : ℝ)
  else (m.Ta : ℝ) + ((m.T0 : ℝ) - (m.Ta : ℝ)) * Real.exp (-(m.k : ℝ) * (t : ℝ))

/-! ## CircuitoRL (src/models.py) -/


/-- Parameters of `CircuitoRL`; its constructor performs no validation. -/
structure CircuitoRL where
  E : ℚ
  R : ℚ
  L : ℚ

/-- `CircuitoRL.calcular`: `0` when `R == 0 or L == 0`, otherwise
`(E/R) * (1 - np.exp(-R*t/L))`. -/
noncomputable def CircuitoRL.calcular (m : CircuitoRL) (t : ℚ) : ℝ :=
  if m.R = 0 ∨ m.L = 0 then 0
  else ((m.E : ℝ) / (m.R : ℝ)) * (1 - Real.exp (-(m.R : ℝ) * (t : ℝ) / (m.L : ℝ)))

/-! ## Mezclas (src/models.py) -/


/-- Parameters of `Mezclas`. -/
structure Mezclas where
  V0 : ℚ
  C0 : ℚ
  r_in : ℚ
  C_in : ℚ
  r_out : ℚ

/-- The constructor of `Mezclas` raises unless `V0 > 0`, `C0 >= 0`,
`r_in >= 0`, `r_out >= 0` and `C_in >= 0`. -/
def Mezclas.Valid (m : Mezclas) : Prop :=
  0 < m.V0 ∧ 0 ≤ m.C0 ∧ 0 ≤ m.r_in ∧ 0 ≤ m.r_out ∧ 0 ≤ m.C_in

instance (m : Mezclas) : Decidable m.Valid := by
  unfold Mezclas.Valid; infer_instance

/-- `self.volumen_constante = abs(r_in - r_out) < 1e-10`. -/
def Mezclas.volumenConstante (m : Mezclas) : Prop :=
  |m.r_in - m.r_out| < 1 / 10 ^ 10

instance (m : Mezclas) : Decidable m.volumenConstante := by
  unfold Mezclas.volumenConstante; infer_instance

/-- One pass of the `while current_t < t` body of `Mezclas.calcular`
(variable-volume branch), instrumented with the number of executed
iterations in the second component.  The state is the triple
`(current_t, current_A, current_V)`; the recursion is fuelled, and the
caller supplies enough fuel for the loop to reach `current_t >= t`. -/
def Mezclas.eulerLoop (m : Mezclas) (t dt : ℚ) :
    ℕ → ℚ → ℚ → ℚ → ℚ × ℕ
  | 0, _, A, _ => (A, 0)
  | fuel + 1, tau, A, V =>
    if tau < t then
      if V ≤ 0 then (0, 0)
      else
        let dtStep := min dt (t - tau)
        let AV :=
          if 0 < V then
            (max 0 (A + (m.r_in * m.C_in - m.r_out * (A / V)) * dtStep),
             max 0 (V + (m.r_in - m.r_out) * dtStep))
          else (A, V)
        let A2 := if |AV.1| < 1 / 10 ^ 10 then 0 else AV.1
        let r := m.eulerLoop t dt fuel (tau + dtStep) A2 AV.2
        (r.1, r.2 + 1)
    else (A, 0)

/-- The full numeric branch of `Mezclas.calcular`: step
`dt = min(0.1, t/1000)`, initial state `(0, C0*V0, V0)`.  The fuel
`⌈t/dt⌉ + 1` is enough for the loop to run to completion, since every
iteration advances `current_t` by `min(dt, t - current_t)`. -/
def Mezclas.euler (m : Mezclas) (t : ℚ) : ℚ × ℕ :=
  let dt := min (1 / 10) (t / 1000)
  m.eulerLoop t dt ((⌈t / dt⌉).toNat + 1) 0 (m.C0 * m.V0) m.V0

/-- Number of iterations of the forward-Euler loop executed by one call
of `Mezclas.calcular` on the variable-volume branch. -/
def Mezclas.eulerPasos (m : Mezclas) (t : ℚ) : ℕ :=
  (m.euler t).2

/-- `Mezclas.calcular`: initial mass for `t <= 0`; closed form (clamped
at 0) on the constant-volume branch with `r_out != 0`, constant mass
when `r_out == 0`; forward-Euler integration on the variable-volume
branch, with the no-flow special case. -/
noncomputable def Mezclas.calcular (m : Mezclas) (t : ℚ) : ℝ :=
  if t ≤ 0 then ((m.C0 * m.V0 : ℚ) : ℝ)
  else if m.volumenConstante then
    if m.r_out = 0 then ((m.C0 * m.V0 : ℚ) : ℝ)
    else
      let A_ss : ℚ := if m.r_out ≠ 0 then m.r_in * m.C_in * m.V0 / m.r_out else 0
      let A0 : ℚ := m.C0 * m.V0
      let k : ℚ := m.r_out / m.V0
      max 0 ((A_ss : ℝ) + ((A0 : ℝ) - (A_ss : ℝ)) * Real.exp (-(k : ℝ) * (t : ℝ)))
  else
    if m.r_in = 0 ∧ m.r_out = 0 then ((m.C0 * m.V0 : ℚ) : ℝ)
    else ((m.euler t).1 : ℝ)

/-- The sequence of `(current_t, current_A, current_V)` states visited by
the integration loop, the entry state included: the trace of the
`while` loop of `Mezclas.calcular`. -/
def Mezclas.eulerTraza (m : Mezclas) (t dt : ℚ) :
    ℕ → ℚ → ℚ → ℚ → List (ℚ × ℚ × ℚ)
  | 0, tau, A, V => [(tau, A, V)]
  | fuel + 1, tau, A, V =>
    if tau < t then
      if V ≤ 0 then [(tau, A, V)]
      else
        let dtStep := min dt (t - tau)
        let AV :=
          if 0 < V then
            (max 0 (A + (m.r_in * m.C_in - m.r_out * (A / V)) * dtStep),
             max 0 (V + (m.r_in - m.r_out) * dtStep))
          else (A, V)
        let A2 := if |AV.1| < 1 / 10 ^ 10 then 0 else AV.1
        (tau, A, V) :: m.eulerTraza t dt fuel (tau + dtStep) A2 AV.2
    else [(tau, A, V)]

/-- The model of the C4 counterexample: `V0 = 0.04002`, `C0 = 0`,
`r_in = 1`, `C_in = 1`, `r_out = 1.0004`.  Its volume drains at rate
`0.0004` and (in exact arithmetic) reaches 0 at `t0 = 100.05`, strictly
inside the final integration step of `evaluate(100.1)`. -/
def mezclaC4 : Mezclas := Mezclas.mk (2001 / 50000) 0 1 1 (2501 / 2500)

/-! ## Simulation runners (`Modelo.simular`, src/models.py;
`SimuladorApp.simular`, src/utils.py) -/


/-- `np.arange(0, stop, step)` for a positive step: the multiples
`i * step` with `i * step < stop`, i.e. `⌈stop/step⌉` of them. -/
def npArange (stop step : ℚ) : List ℚ :=
  (List.range (⌈stop / step⌉).toNat).map fun i : ℕ => (i : ℚ) * step

/-- The time grid of `Modelo.simular(t_max, dt)`:
`np.arange(0, t_max + dt, dt)`. -/
def simularT (t_max dt : ℚ) : List ℚ :=
  npArange (t_max + dt) dt

/-- `np.linspace(a, b, n)` (the code always uses `n = 1000`). -/
def npLinspace (a b : ℚ) (n : ℕ) : List ℚ :=
  (List.range n).map fun i : ℕ => a + (b - a) * (i : ℚ) / ((n : ℚ) - 1)

/-- The closed set of models built by `SimuladorApp.crear_modelo`. -/
inductive Modelo where
  | crecimiento (m : CrecimientoExponencial)
  | enfriamiento (m : EnfriamientoNewton)
  | circuito (m : CircuitoRL)
  | mezclas (m : Mezclas)

/-- A model's constructor succeeds: the conjunction of the per-variant
parameter checks (none for `CrecimientoExponencial` and `CircuitoRL`). -/
def Modelo.ConstruccionValida : Modelo → Prop
  | .crecimiento _ => True
  | .enfriamiento m => m.Valid
  | .circuito _ => True
  | .mezclas m => m.Valid

instance (m : Modelo) : Decidable m.ConstruccionValida := by
  cases m <;> (unfold Modelo.ConstruccionValida; infer_instance)

/-- Dispatch of `calcular` over the model variants. -/
noncomputable def Modelo.calcularM : Modelo → ℚ → ℝ
  | .crecimiento m, t => m.calcular t
  | .enfriamiento m, t => m.calcular t
  | .circuito m, t => m.calcular t
  | .mezclas m, t => m.calcular t

/-- `Modelo.simular(t_max, dt)` (src/models.py): samples `calcular` on
`np.arange(0, t_max + dt, dt)`.  It performs no validation of `t_max`
and has no failure path. -/
noncomputable def Modelo.simular (m : Modelo) (t_max dt : ℚ) :
    List ℚ × List ℝ :=
  (simularT t_max dt, (simularT t_max dt).map m.calcularM)

/-- `SimuladorApp.simular` (src/utils.py): builds the model (the
constructor raises `ValueError` on invalid parameters, which the app
catches and turns into no result), then samples `calcular` on
`np.linspace(0, t_max, 1000)`.  `t_max` itself is never validated. -/
noncomputable def appSimular (m : Modelo) (t_max : ℚ) :
    Except Unit (List ℚ × List ℝ) :=
  if m.ConstruccionValida then
    .ok (npLinspace 0 t_max 1000, (npLinspace 0 t_max 1000).map m.calcularM)
  else .error ()

/-! ## Interpretation routines (`get_interpretacion`, src/models.py).
Python float division raises `ZeroDivisionError` on a zero divisor, so
division is embedded fallibly; list indexing `[-1]` on an empty list
raises `IndexError`, embedded via `getLast?`.  The exact text of the
messages is irrelevant to the claims, so the number formatting of the
original f-strings is abbreviated to `toString`. -/


/-- Python float division: raises on a zero divisor. -/
def pydiv (a b : ℚ) : Except Unit ℚ :=
  if b = 0 then .error () else .ok (a / b)

/-- `CrecimientoExponencial.get_interpretacion`. -/
def CrecimientoExponencial.getInterpretacion (m : CrecimientoExponencial)
    (_ts _ys : List ℚ) : Except Unit String :=
  if 0 < m.k then
    .ok ("El sistema muestra un crecimiento exponencial con tasa "
      ++ toString m.k ++ ".")
  else if m.k < 0 then
    .ok ("El sistema muestra un decaimiento exponencial con tasa "
      ++ toString |m.k| ++ ".")
  else .ok ("El sistema permanece constante en el tiempo.")

/-- `EnfriamientoNewton.get_interpretacion`: reads
`tiempo_equilibrio` from the statistics dict with default 0. -/
def EnfriamientoNewton.getInterpretacion (m : EnfriamientoNewton)
    (ts ys : List ℚ) : Except Unit String :=
  let tiempo : ℚ :=
    match getEstadisticas ts ys with
    | some s => s.tiempo_equilibrio
    | none => 0
  .ok ("El sistema se enfria de " ++ toString m.T0
    ++ " hacia la temperatura ambiente " ++ toString m.Ta
    ++ ". Se estabiliza en aproximadamente " ++ toString tiempo
    ++ " unidades de tiempo.")

/-- `CircuitoRL.get_interpretacion`: the divisions are guarded by
`R != 0` conditional expressions (`float('inf')` otherwise). -/
def CircuitoRL.getInterpretacion (m : CircuitoRL)
    (_ts _ys : List ℚ) : Except Unit String :=
  if 0 < m.L then
    let tau := if m.R ≠ 0 then toString (m.L / m.R) else ("inf")
    let imax := if m.R ≠ 0 then toString (m.E / m.R) else ("inf")
    .ok ("El circuito RL tiene una constante de tiempo tau = " ++ tau
      ++ ". La corriente maxima teorica es " ++ imax ++ " A.")
  else .ok ("")

/-- `Mezclas.get_interpretacion`: guarded empty-data message; `y[-1]`
indexing; `final_conc` guarded by `final_vol > 0`; the constant-volume
report divides by `r_out` (in the `r_out > 0` branch) and by `V0`. -/
def Mezclas.getInterpretacion (m : Mezclas) (ts ys : List ℚ) :
    Except Unit String :=
  if ys.length = 0 then .ok ("No hay datos de simulacion disponibles.")
  else
    match ys.getLast? with
    | none => .error ()
    | some finalAmount =>
      let finalVol :=
        if 0 < ts.length then m.V0 + (m.r_in - m.r_out) * ts.getLastD 0
        else m.V0
      let finalConc := if 0 < finalVol then finalAmount / finalVol else 0
      if m.volumenConstante then
        if 0 < m.r_out then
          match pydiv m.V0 m.r_out, pydiv (m.r_in * m.C_in * m.V0) m.r_out with
          | .ok tau, .ok A_ss =>
            match pydiv A_ss m.V0 with
            | .ok C_ss =>
              .ok ("SISTEMA DE MEZCLAS (VOLUMEN CONSTANTE) tau = "
                ++ toString tau ++ ", A_ss = " ++ toString A_ss
                ++ ", C_ss = " ++ toString C_ss
                ++ ", cantidad final = " ++ toString finalAmount
                ++ ", concentracion final = " ++ toString finalConc)
            | .error e => .error e
          | .error e, _ => .error e
          | _, .error e => .error e
        else
          .ok ("Sistema sin flujo de salida. La cantidad de soluto no cambia con el tiempo.")
      else
        .ok ("SISTEMA DE MEZCLAS (VOLUMEN VARIABLE) volumen final = "
          ++ toString finalVol ++ ", cantidad final = " ++ toString finalAmount
          ++ ", concentracion final = " ++ toString finalConc)

/-- Dispatch of `get_interpretacion` over the model variants. -/
def Modelo.getInterpretacion : Modelo → List ℚ → List ℚ → Except Unit String
  | .crecimiento m, ts, ys => m.getInterpretacion ts ys
  | .enfriamiento m, ts, ys => m.getInterpretacion ts ys
  | .circuito m, ts, ys => m.getInterpretacion ts ys
  | .mezclas m, ts, ys => m.getInterpretacion ts ys

/-! ## Theorems: supporting lemmas and the claims -/

/-! Lemmas characterising `firstSteadyIdx` as the least steady index. -/

theorem firstSteadyIdx_eq_none_iff (ys : List ℚ) :
    firstSteadyIdx ys = none ↔
      ∀ i, i + 1 < ys.length → ¬ steadyPair (ys.getD i 0) (ys.getD (i + 1) 0) := by
  induction ys with
  | nil => simp [firstSteadyIdx]
  | cons a l ih =>
    cases l with
    | nil =>
      simp [firstSteadyIdx]
    | cons b rest =>
      rw [firstSteadyIdx]
      constructor
      · intro h i hi
        by_cases hs : steadyPair a b
        · simp [hs] at h
        · simp [hs, Option.map_eq_none'] at h
          cases i with
          | zero => simpa using hs
          | succ j =>
            have := (ih.mp h) j (by simpa [Nat.succ_lt_succ_iff] using hi)
            simpa using this
      · intro h
        have hs : ¬ steadyPair a b := by
          have := h 0 (by simp)
          simpa using this
        simp [hs, Option.map_eq_none']
        exact ih.mpr fun j hj => by
          have := h (j + 1) (by simpa [Nat.succ_lt_succ_iff] using hj)
          simpa using this

theorem firstSteadyIdx_eq_some_of (ys : List ℚ) (i : ℕ)
    (hlt : i + 1 < ys.length)
    (hst : steadyPair (ys.getD i 0) (ys.getD (i + 1) 0))
    (hmin : ∀ j, j < i → ¬ steadyPair (ys.getD j 0) (ys.getD (j + 1) 0)) :
    firstSteadyIdx ys = some i := by
  induction ys generalizing i with
  | nil => simp at hlt
  | cons a l ih =>
    cases l with
    | nil => simp at hlt
    | cons b rest =>
      rw [firstSteadyIdx]
      cases i with
      | zero =>
        simp at hst
        simp [hst]
      | succ j =>
        have hs : ¬ steadyPair a b := by
          have := hmin 0 (Nat.succ_pos j)
          simpa using this
        simp only [hs, if_false]
        have := ih j (by simpa [Nat.succ_lt_succ_iff] using hlt)
          (by simpa using hst)
          (fun k hk => by
            have := hmin (k + 1) (by omega)
            simpa using this)
        simp [this]

/-- Claim C1: for a trajectory of at least 3 samples, the statistics
engine's equilibrium time is the time of the sample at which the first
steady consecutive change completes (steady: relative change below 0.01
or absolute change below 1e-6); with no steady change, or with fewer
than 3 samples, it is the last time value. -/
theorem claim_c1 (ts ys : List ℚ) (hlen : ts.length = ys.length) (_hne : ts ≠ []) :
    (ys.length < 3 → tiempoEquilibrio ts ys = ts.getLastD 0)
    ∧ ((∀ i, i + 1 < ys.length →
          ¬ steadyPair (ys.getD i 0) (ys.getD (i + 1) 0)) →
        tiempoEquilibrio ts ys = ts.getLastD 0)
    ∧ ∀ i, i + 1 < ys.length →
        steadyPair (ys.getD i 0) (ys.getD (i + 1) 0) →
        (∀ j, j < i → ¬ steadyPair (ys.getD j 0) (ys.getD (j + 1) 0)) →
        3 ≤ ys.length →
        tiempoEquilibrio ts ys = ts.getD (i + 1) 0 := by
  refine ⟨?_, ?_, ?_⟩
  · intro h3
    unfold tiempoEquilibrio
    rw [if_neg (by omega)]
  · intro hnone
    unfold tiempoEquilibrio
    by_cases h3 : 2 < ys.length
    · rw [if_pos h3, (firstSteadyIdx_eq_none_iff ys).mpr hnone]
    · rw [if_neg h3]
  · intro i hi hst hmin h3
    unfold tiempoEquilibrio
    rw [if_pos (by omega), firstSteadyIdx_eq_some_of ys i hi hst hmin]
    simp only
    rw [if_pos (by omega)]

/-- Witness for C1 at the trajectory t = [0,1,2], y = [0,10,10]: the
first steady change is the second one, so the equilibrium time is 2. -/
theorem claim_c1_witness :
    tiempoEquilibrio [0, 1, 2] [0, 10, 10] = 2 := by
  have h := (claim_c1 [0, 1, 2] [0, 10, 10] (by decide) (by decide)).2.2
    1 (by decide) (by norm_num [steadyPair])
    (fun j hj => by
      have hj0 : j = 0 := by omega
      subst hj0
      norm_num [steadyPair])
    (by decide)
  simpa using h

/-- Claim C2 counterexample: with `P0 = 0` (the claim allows any sign of
`P0`) and `k = 1 > 0`, `evaluate` is constant, so `t1 = 0 < t2 = 1` does
not give `evaluate(t1) < evaluate(t2)`. -/
theorem claim_c2_counterexample :
    (0 : ℚ) < (CrecimientoExponencial.mk 0 1).k
    ∧ (0 : ℚ) < (1 : ℚ)
    ∧ ¬ ((CrecimientoExponencial.mk 0 1).calcular 0 <
          (CrecimientoExponencial.mk 0 1).calcular 1) := by
  refine ⟨by norm_num, by norm_num, ?_⟩
  simp [CrecimientoExponencial.calcular]

/-- Claim C2 (amended: `P0 > 0` is required): for `P0 > 0` and `t1 < t2`,
`evaluate` is strictly increasing when `k > 0`, strictly decreasing when
`k < 0`, and constant when `k = 0`. -/
theorem claim_c2_amended (P0 k t1 t2 : ℚ) (hP : 0 < P0) (h12 : t1 < t2) :
    (0 < k → (CrecimientoExponencial.mk P0 k).calcular t1 <
        (CrecimientoExponencial.mk P0 k).calcular t2)
    ∧ (k < 0 → (CrecimientoExponencial.mk P0 k).calcular t2 <
        (CrecimientoExponencial.mk P0 k).calcular t1)
    ∧ (k = 0 → (CrecimientoExponencial.mk P0 k).calcular t1 =
        (CrecimientoExponencial.mk P0 k).calcular t2) := by
  have hP' : (0 : ℝ) < (P0 : ℚ) := by exact_mod_cast hP
  have h12' : ((t1 : ℚ) : ℝ) < ((t2 : ℚ) : ℝ) := by exact_mod_cast h12
  unfold CrecimientoExponencial.calcular
  refine ⟨?_, ?_, ?_⟩
  · intro hk
    have hk' : (0 : ℝ) < (k : ℚ) := by exact_mod_cast hk
    exact mul_lt_mul_of_pos_left
      (Real.exp_lt_exp.mpr (mul_lt_mul_of_pos_left h12' hk')) hP'
  · intro hk
    have hk' : ((k : ℚ) : ℝ) < 0 := by exact_mod_cast hk
    exact mul_lt_mul_of_pos_left
      (Real.exp_lt_exp.mpr (mul_lt_mul_of_neg_left h12' hk')) hP'
  · intro hk
    subst hk
    norm_num

/-- Witness for the amended C2 at `P0 = 1`, `k = 1`, `t1 = 0`, `t2 = 1`. -/
theorem claim_c2_witness :
    (CrecimientoExponencial.mk 1 1).calcular 0 <
      (CrecimientoExponencial.mk 1 1).calcular 1 :=
  (claim_c2_amended 1 1 0 1 (by norm_num) (by norm_num)).1 (by norm_num)

/-- Claim C6: a valid `EnfriamientoNewton` model returns `T0` for `t < 0`
and `Ta + (T0 - Ta) * exp(-k*t)` for `t >= 0`. -/
theorem claim_c6 (m : EnfriamientoNewton) (_hv : m.Valid) (t : ℚ) :
    (t < 0 → m.calcular t = (m.T0 : ℝ))
    ∧ (0 ≤ t → m.calcular t =
        (m.Ta : ℝ) + ((m.T0 : ℝ) - (m.Ta : ℝ)) * Real.exp (-(m.k : ℝ) * (t : ℝ))) := by
  unfold EnfriamientoNewton.calcular
  constructor
  · intro h
    rw [if_pos h]
  · intro h
    rw [if_neg (not_lt.mpr h)]

/-- Witness for C6: the model `T0 = 90`, `Ta = 25`, `k = 0.1` is valid and
`evaluate(-5) = 90`. -/
theorem claim_c6_witness :
    (EnfriamientoNewton.mk 90 25 (1 / 10)).calcular (-5) = ((90 : ℚ) : ℝ) :=
  (claim_c6 (EnfriamientoNewton.mk 90 25 (1 / 10))
    ⟨by norm_num, by norm_num⟩ (-5)).1 (by norm_num)

/-- Claim C7: `CircuitoRL` returns 0 when `R = 0` or `L = 0` (no error is
raised), and `(E/R) * (1 - exp(-R*t/L))` otherwise. -/
theorem claim_c7 (m : CircuitoRL) (t : ℚ) :
    (m.R = 0 ∨ m.L = 0 → m.calcular t = 0)
    ∧ (m.R ≠ 0 → m.L ≠ 0 → m.calcular t =
        ((m.E : ℝ) / (m.R : ℝ)) * (1 - Real.exp (-(m.R : ℝ) * (t : ℝ) / (m.L : ℝ)))) := by
  unfold CircuitoRL.calcular
  constructor
  · intro h
    rw [if_pos h]
  · intro hR hL
    rw [if_neg (by tauto)]

/-- Witness for C7: the degenerate circuit `E = 12`, `R = 0`, `L = 1`
evaluates to 0 at `t = 5`. -/
theorem claim_c7_witness :
    (CircuitoRL.mk 12 0 1).calcular 5 = 0 :=
  (claim_c7 (CircuitoRL.mk 12 0 1) 5).1 (Or.inl rfl)

/-- Claim C3: a valid constant-volume `Mezclas` model returns the initial
mass `C0*V0` for `t <= 0` or `r_out = 0`, and otherwise the clamped
closed form `max(0, A_ss + (A0 - A_ss) * exp(-(r_out/V0) * t))` with
`A_ss = r_in*C_in*V0/r_out` and `A0 = C0*V0`. -/
theorem claim_c3 (m : Mezclas) (_hv : m.Valid) (hc : m.volumenConstante) (t : ℚ) :
    (t ≤ 0 ∨ m.r_out = 0 → m.calcular t = ((m.C0 * m.V0 : ℚ) : ℝ))
    ∧ (0 < t → m.r_out ≠ 0 → m.calcular t =
        max 0 (((m.r_in * m.C_in * m.V0 / m.r_out : ℚ) : ℝ)
          + (((m.C0 * m.V0 : ℚ) : ℝ) - ((m.r_in * m.C_in * m.V0 / m.r_out : ℚ) : ℝ))
            * Real.exp (-((m.r_out / m.V0 : ℚ) : ℝ) * (t : ℝ)))) := by
  unfold Mezclas.calcular
  constructor
  · rintro (ht | hr)
    · rw [if_pos ht]
    · by_cases ht : t ≤ 0
      · rw [if_pos ht]
      · rw [if_neg ht, if_pos hc, if_pos hr]
  · intro ht hr
    rw [if_neg (not_le.mpr ht), if_pos hc, if_neg hr]
    simp only [if_pos hr]

/-- Witness for C3: the valid constant-volume model
`V0 = 100, C0 = 1/2, r_in = 2, C_in = 1/10, r_out = 2` returns the
initial mass 50 at `t = 0`. -/
theorem claim_c3_witness :
    (Mezclas.mk 100 (1 / 2) 2 (1 / 10) 2).calcular 0 =
      (((1 : ℚ) / 2 * 100 : ℚ) : ℝ) :=
  (claim_c3 (Mezclas.mk 100 (1 / 2) 2 (1 / 10) 2)
    ⟨by norm_num, by norm_num, by norm_num, by norm_num, by norm_num⟩
    (by norm_num [Mezclas.volumenConstante]) 0).1 (Or.inl le_rfl)

/-! Equation lemmas for the four exits of one loop iteration. -/

theorem Mezclas.eulerLoop_fuel_zero (m : Mezclas) (t dt tau A V : ℚ) :
    m.eulerLoop t dt 0 tau A V = (A, 0) := rfl

theorem Mezclas.eulerLoop_stop (m : Mezclas) (t dt : ℚ) (fuel : ℕ)
    (tau A V : ℚ) (h : ¬ tau < t) :
    m.eulerLoop t dt (fuel + 1) tau A V = (A, 0) := by
  simp only [Mezclas.eulerLoop, if_neg h]

theorem Mezclas.eulerLoop_empty (m : Mezclas) (t dt : ℚ) (fuel : ℕ)
    (tau A V : ℚ) (h1 : tau < t) (h2 : V ≤ 0) :
    m.eulerLoop t dt (fuel + 1) tau A V = (0, 0) := by
  simp only [Mezclas.eulerLoop, if_pos h1, if_pos h2]

theorem Mezclas.eulerLoop_succ (m : Mezclas) (t dt : ℚ) (fuel : ℕ)
    (tau A V : ℚ) (h1 : tau < t) (h2 : 0 < V) :
    m.eulerLoop t dt (fuel + 1) tau A V =
      (let dtStep := min dt (t - tau)
       let A1 := max 0 (A + (m.r_in * m.C_in - m.r_out * (A / V)) * dtStep)
       let V1 := max 0 (V + (m.r_in - m.r_out) * dtStep)
       let A2 := if |A1| < 1 / 10 ^ 10 then 0 else A1
       let r := m.eulerLoop t dt fuel (tau + dtStep) A2 V1
       (r.1, r.2 + 1)) := by
  simp only [Mezclas.eulerLoop, if_pos h1, if_neg (not_le.mpr h2), if_pos h2]

/-- The mass returned by the integration loop is never negative, whatever
the fuel and entry state (the entry mass being non-negative). -/
theorem Mezclas.eulerLoop_nonneg (m : Mezclas) (t dt : ℚ) :
    ∀ (fuel : ℕ) (tau A V : ℚ), 0 ≤ A →
      0 ≤ (m.eulerLoop t dt fuel tau A V).1 := by
  intro fuel
  induction fuel with
  | zero =>
    intro tau A V hA
    simpa [Mezclas.eulerLoop_fuel_zero] using hA
  | succ n ih =>
    intro tau A V hA
    by_cases h1 : tau < t
    · by_cases h2 : V ≤ 0
      · rw [m.eulerLoop_empty t dt n tau A V h1 h2]
      · have h2' : 0 < V := not_le.mp h2
        rw [m.eulerLoop_succ t dt n tau A V h1 h2']
        simp only
        apply ih
        split
        · exact le_refl 0
        · exact le_max_left 0 _
    · rw [m.eulerLoop_stop t dt n tau A V h1]
      exact hA

/-! Equation lemmas for the trace. -/

theorem Mezclas.eulerTraza_fuel_zero (m : Mezclas) (t dt tau A V : ℚ) :
    m.eulerTraza t dt 0 tau A V = [(tau, A, V)] := rfl

theorem Mezclas.eulerTraza_stop (m : Mezclas) (t dt : ℚ) (fuel : ℕ)
    (tau A V : ℚ) (h : ¬ tau < t) :
    m.eulerTraza t dt (fuel + 1) tau A V = [(tau, A, V)] := by
  simp only [Mezclas.eulerTraza, if_neg h]

theorem Mezclas.eulerTraza_empty (m : Mezclas) (t dt : ℚ) (fuel : ℕ)
    (tau A V : ℚ) (h1 : tau < t) (h2 : V ≤ 0) :
    m.eulerTraza t dt (fuel + 1) tau A V = [(tau, A, V)] := by
  simp only [Mezclas.eulerTraza, if_pos h1, if_pos h2]

theorem Mezclas.eulerTraza_succ (m : Mezclas) (t dt : ℚ) (fuel : ℕ)
    (tau A V : ℚ) (h1 : tau < t) (h2 : 0 < V) :
    m.eulerTraza t dt (fuel + 1) tau A V =
      (tau, A, V) :: m.eulerTraza t dt fuel (tau + min dt (t - tau))
        (if |max 0 (A + (m.r_in * m.C_in - m.r_out * (A / V)) * min dt (t - tau))|
            < 1 / 10 ^ 10
         then 0
         else max 0 (A + (m.r_in * m.C_in - m.r_out * (A / V)) * min dt (t - tau)))
        (max 0 (V + (m.r_in - m.r_out) * min dt (t - tau))) := by
  simp only [Mezclas.eulerTraza, if_pos h1, if_neg (not_le.mpr h2), if_pos h2]

/-- Mass and volume are non-negative at every state the integration loop
visits, as soon as they are non-negative at the entry state. -/
theorem Mezclas.eulerTraza_nonneg (m : Mezclas) (t dt : ℚ) :
    ∀ (fuel : ℕ) (tau A V : ℚ), 0 ≤ A → 0 ≤ V →
      ∀ s ∈ m.eulerTraza t dt fuel tau A V, 0 ≤ s.2.1 ∧ 0 ≤ s.2.2 := by
  intro fuel
  induction fuel with
  | zero =>
    intro tau A V hA hV s hs
    rw [Mezclas.eulerTraza_fuel_zero, List.mem_singleton] at hs
    subst hs
    exact ⟨hA, hV⟩
  | succ n ih =>
    intro tau A V hA hV s hs
    by_cases h1 : tau < t
    · by_cases h2 : V ≤ 0
      · rw [m.eulerTraza_empty t dt n tau A V h1 h2, List.mem_singleton] at hs
        subst hs
        exact ⟨hA, hV⟩
      · have h2' : 0 < V := not_le.mp h2
        rw [m.eulerTraza_succ t dt n tau A V h1 h2', List.mem_cons] at hs
        rcases hs with hs | hs
        · subst hs
          exact ⟨hA, hV⟩
        · refine ih _ _ _ ?_ (le_max_left 0 _) s hs
          split
          · exact le_refl 0
          · exact le_max_left 0 _
    · rw [m.eulerTraza_stop t dt n tau A V h1, List.mem_singleton] at hs
      subst hs
      exact ⟨hA, hV⟩

/-- One executed iteration, existential form: the successor call equals
the recursive call at the advanced state (for some snapped mass), with
the iteration count increased by one. -/
theorem Mezclas.eulerLoop_succ_ex (m : Mezclas) (t dt : ℚ) (fuel : ℕ)
    (tau A V : ℚ) (h1 : tau < t) (h2 : 0 < V) :
    ∃ A2, 0 ≤ A2 ∧
      m.eulerLoop t dt (fuel + 1) tau A V =
        ((m.eulerLoop t dt fuel (tau + min dt (t - tau)) A2
            (max 0 (V + (m.r_in - m.r_out) * min dt (t - tau)))).1,
         (m.eulerLoop t dt fuel (tau + min dt (t - tau)) A2
            (max 0 (V + (m.r_in - m.r_out) * min dt (t - tau)))).2 + 1) := by
  refine ⟨_, ?_, m.eulerLoop_succ t dt fuel tau A V h1 h2⟩
  split
  · exact le_refl 0
  · exact le_max_left 0 _

/-- From a state with `current_t = t` the loop exits at once. -/
theorem Mezclas.eulerLoop_at_end (m : Mezclas) (t dt : ℚ) :
    ∀ (fuel : ℕ) (A V : ℚ), m.eulerLoop t dt fuel t A V = (A, 0) := by
  intro fuel A V
  cases fuel with
  | zero => rfl
  | succ n => exact m.eulerLoop_stop t dt n t A V (lt_irrefl t)

/-- Iteration-count upper bound: from a state with `current_t <= t` the
loop executes at most `⌈(t - current_t)/dt⌉` iterations. -/
theorem Mezclas.eulerLoop_count_le (m : Mezclas) (t dt : ℚ) (hdt : 0 < dt) :
    ∀ (fuel : ℕ) (tau A V : ℚ), tau ≤ t →
      ((m.eulerLoop t dt fuel tau A V).2 : ℤ) ≤ ⌈(t - tau) / dt⌉ := by
  intro fuel
  induction fuel with
  | zero =>
    intro tau A V htau
    rw [Mezclas.eulerLoop_fuel_zero]
    exact_mod_cast Int.ceil_nonneg (div_nonneg (by linarith) hdt.le)
  | succ n ih =>
    intro tau A V htau
    by_cases h1 : tau < t
    · by_cases h2 : V ≤ 0
      · rw [m.eulerLoop_empty t dt n tau A V h1 h2]
        exact_mod_cast Int.ceil_nonneg (div_nonneg (by linarith) hdt.le)
      · have h2' : 0 < V := not_le.mp h2
        obtain ⟨A2, -, hstep⟩ := m.eulerLoop_succ_ex t dt n tau A V h1 h2'
        rw [hstep]
        rcases le_total dt (t - tau) with hmin | hmin
        · rw [min_eq_left hmin]
          have hrec := ih (tau + dt) A2
            (max 0 (V + (m.r_in - m.r_out) * dt)) (by linarith)
          have hceil : ⌈(t - (tau + dt)) / dt⌉ = ⌈(t - tau) / dt⌉ - 1 := by
            have he : (t - (tau + dt)) / dt = (t - tau) / dt - 1 := by
              field_simp
              ring
            rw [he, Int.ceil_sub_one]
          rw [hceil] at hrec
          push_cast
          omega
        · rw [min_eq_right hmin, show tau + (t - tau) = t from by ring,
            m.eulerLoop_at_end t dt n]
          have hpos : 0 < ⌈(t - tau) / dt⌉ :=
            Int.ceil_pos.mpr (div_pos (by linarith) hdt)
          push_cast
          omega
    · rw [m.eulerLoop_stop t dt n tau A V h1]
      exact_mod_cast Int.ceil_nonneg (div_nonneg (by linarith) hdt.le)

/-- Iteration-count exact value: when the outflow does not exceed the
inflow (so the tracked volume never decreases and the tank never
empties), the loop from a positive-volume state executes exactly
`⌈(t - current_t)/dt⌉` iterations, given sufficient fuel. -/
theorem Mezclas.eulerLoop_count_eq (m : Mezclas) (t dt : ℚ) (hdt : 0 < dt)
    (hio : m.r_out ≤ m.r_in) :
    ∀ (fuel : ℕ) (tau A V : ℚ), tau ≤ t → 0 < V →
      ⌈(t - tau) / dt⌉ < (fuel : ℤ) →
      ((m.eulerLoop t dt fuel tau A V).2 : ℤ) = ⌈(t - tau) / dt⌉ := by
  intro fuel
  induction fuel with
  | zero =>
    intro tau A V htau hV hfuel
    have := Int.ceil_nonneg (div_nonneg (by linarith : (0:ℚ) ≤ t - tau) hdt.le)
    omega
  | succ n ih =>
    intro tau A V htau hV hfuel
    by_cases h1 : tau < t
    · obtain ⟨A2, -, hstep⟩ := m.eulerLoop_succ_ex t dt n tau A V h1 hV
      rw [hstep]
      have hdtStep : 0 ≤ min dt (t - tau) := le_min hdt.le (by linarith)
      have hV2 : 0 < max 0 (V + (m.r_in - m.r_out) * min dt (t - tau)) := by
        have hge : 0 ≤ (m.r_in - m.r_out) * min dt (t - tau) :=
          mul_nonneg (sub_nonneg.mpr hio) hdtStep
        exact lt_max_iff.mpr (Or.inr (by linarith))
      rcases le_total dt (t - tau) with hmin | hmin
      · rw [min_eq_left hmin] at hstep hV2 ⊢
        have hceil : ⌈(t - (tau + dt)) / dt⌉ = ⌈(t - tau) / dt⌉ - 1 := by
          have he : (t - (tau + dt)) / dt = (t - tau) / dt - 1 := by
            field_simp
            ring
          rw [he, Int.ceil_sub_one]
        have hrec := ih (tau + dt) A2
          (max 0 (V + (m.r_in - m.r_out) * dt)) (by linarith) hV2
          (by rw [hceil]; omega)
        rw [hceil] at hrec
        push_cast
        omega
      · rw [min_eq_right hmin, show tau + (t - tau) = t from by ring,
          m.eulerLoop_at_end t dt n]
        have hone : ⌈(t - tau) / dt⌉ = 1 := by
          refine le_antisymm (Int.ceil_le.mpr ?_) (Int.ceil_pos.mpr ?_)
          · rw [Int.cast_one]
            exact (div_le_one hdt).mpr hmin
          · exact div_pos (by linarith) hdt
        rw [hone]
        norm_num
    · have htt : tau = t := le_antisymm htau (not_lt.mp h1)
      rw [htt, m.eulerLoop_at_end t dt (n + 1) A V]
      simp

/-- The iteration count of one `Mezclas.calcular` call, in closed form,
when the volume cannot decrease. -/
theorem Mezclas.eulerPasos_eq (m : Mezclas) (t : ℚ) (ht : 0 < t)
    (hio : m.r_out ≤ m.r_in) (hV : 0 < m.V0) :
    (m.eulerPasos t : ℤ) = ⌈t / min (1 / 10) (t / 1000)⌉ := by
  have hdt : 0 < min (1 / 10 : ℚ) (t / 1000) :=
    lt_min (by norm_num) (by positivity)
  simp only [Mezclas.eulerPasos, Mezclas.euler]
  have h := m.eulerLoop_count_eq t (min (1 / 10) (t / 1000)) hdt hio
    ((⌈t / min (1 / 10) (t / 1000)⌉).toNat + 1) 0 (m.C0 * m.V0) m.V0 ht.le hV
    (by
      rw [sub_zero]
      have := Int.self_le_toNat ⌈t / min (1 / 10) (t / 1000)⌉
      push_cast
      omega)
  rw [h, sub_zero]

/-- The iteration count of one `Mezclas.calcular` call is at most
`⌈t / dt⌉` with `dt = min(0.1, t/1000)`, whatever the model. -/
theorem Mezclas.eulerPasos_le (m : Mezclas) (t : ℚ) (ht : 0 < t) :
    (m.eulerPasos t : ℤ) ≤ ⌈t / min (1 / 10) (t / 1000)⌉ := by
  have hdt : 0 < min (1 / 10 : ℚ) (t / 1000) :=
    lt_min (by norm_num) (by positivity)
  simp only [Mezclas.eulerPasos, Mezclas.euler]
  have h := m.eulerLoop_count_le t (min (1 / 10) (t / 1000)) hdt
    ((⌈t / min (1 / 10) (t / 1000)⌉).toNat + 1) 0 (m.C0 * m.V0) m.V0 ht.le
  rw [sub_zero] at h
  exact h

/-- Claim C5 counterexample: the valid variable-volume model
`V0 = 1, C0 = 0, r_in = 2, C_in = 0, r_out = 1` evaluated at `t = 1000`
performs 10000 integration steps (`dt = min(0.1, 1) = 0.1`), far more
than 1000: the step-size policy does not bound the iteration count. -/
theorem claim_c5_counterexample :
    (Mezclas.mk 1 0 2 0 1).Valid
    ∧ ¬ (Mezclas.mk 1 0 2 0 1).volumenConstante
    ∧ (Mezclas.mk 1 0 2 0 1).eulerPasos 1000 = 10000
    ∧ ¬ (Mezclas.mk 1 0 2 0 1).eulerPasos 1000 ≤ 1000 := by
  have h := Mezclas.eulerPasos_eq (Mezclas.mk 1 0 2 0 1) 1000
    (by norm_num) (by norm_num) (by norm_num)
  rw [show min (1 / 10 : ℚ) (1000 / 1000) = 1 / 10 from by norm_num,
    show (1000 : ℚ) / (1 / 10) = ((10000 : ℤ) : ℚ) from by norm_num,
    Int.ceil_intCast] at h
  have hp : (Mezclas.mk 1 0 2 0 1).eulerPasos 1000 = 10000 := by
    exact_mod_cast h
  exact ⟨⟨by norm_num, by norm_num, by norm_num, by norm_num, by norm_num⟩,
    by norm_num [Mezclas.volumenConstante], hp, by omega⟩

/-- Claim C5 (amended): one call of `evaluate(t)` on the variable-volume
branch performs at most `max(1000, ⌈10·t⌉)` forward-Euler steps: the
1000 bound alone holds only for `t ≤ 100`, and for larger `t` the count
grows linearly as `10·t`. -/
theorem claim_c5_amended (m : Mezclas) (t : ℚ) (ht : 0 < t) :
    (m.eulerPasos t : ℤ) ≤ max 1000 ⌈(10 : ℚ) * t⌉ := by
  refine le_trans (m.eulerPasos_le t ht) ?_
  rcases le_total t 100 with h100 | h100
  · have hmin : min (1 / 10 : ℚ) (t / 1000) = t / 1000 := by
      apply min_eq_right
      rw [div_le_div_iff (by norm_num) (by norm_num)]
      linarith
    rw [hmin, show t / (t / 1000) = ((1000 : ℤ) : ℚ) from by
      push_cast
      field_simp, Int.ceil_intCast]
    exact le_max_of_le_left (by norm_num)
  · have hmin : min (1 / 10 : ℚ) (t / 1000) = 1 / 10 := by
      apply min_eq_left
      rw [div_le_div_iff (by norm_num) (by norm_num)]
      linarith
    rw [hmin, show t / (1 / 10) = (10 : ℚ) * t from by
      field_simp
      ring]
    exact le_max_right _ _

/-- Witness for the amended C5 at a concrete valid variable-volume model
and `t = 1`. -/
theorem claim_c5_witness :
    ((Mezclas.mk 100 (1 / 2) 3 (1 / 10) 1).eulerPasos 1 : ℤ) ≤
      max 1000 ⌈(10 : ℚ) * 1⌉ :=
  claim_c5_amended (Mezclas.mk 100 (1 / 2) 3 (1 / 10) 1) 1 (by norm_num)

/-- A valid `Mezclas` model never returns a negative mass, on any branch. -/
theorem Mezclas.calcular_nonneg (m : Mezclas) (hv : m.Valid) (t : ℚ) :
    0 ≤ m.calcular t := by
  obtain ⟨hV0, hC0, -, -, -⟩ := hv
  have hA0 : (0 : ℚ) ≤ m.C0 * m.V0 := mul_nonneg hC0 hV0.le
  have hA0r : (0 : ℝ) ≤ ((m.C0 * m.V0 : ℚ) : ℝ) := by exact_mod_cast hA0
  unfold Mezclas.calcular
  split_ifs with h1 h2 h3 h4
  · exact hA0r
  · exact hA0r
  · exact le_max_left 0 _
  · exact hA0r
  · have h := m.eulerLoop_nonneg t (min (1 / 10) (t / 1000))
      ((⌈t / min (1 / 10) (t / 1000)⌉).toNat + 1) 0 (m.C0 * m.V0) m.V0 hA0
    simp only [Mezclas.euler]
    exact_mod_cast h

/-- Claim C4 (amended): on the variable-volume branch, mass and volume
are non-negative at every integration step (every state of the loop
trace), the loop returns exactly 0 as soon as it observes a non-positive
volume before reaching `t`, and every evaluation of a valid model is
non-negative.  However — see the counterexample — `evaluate(t)` need
not be 0 for every `t` at or beyond `V0/(r_out - r_in)`: when the volume
first vanishes inside the final integration step, the returned mass can
be positive. -/
theorem claim_c4_amended (m : Mezclas) (hv : m.Valid) (t dt : ℚ) (fuel : ℕ)
    (tau A V : ℚ) (hA : 0 ≤ A) (hV : 0 ≤ V) (s : ℚ × ℚ × ℚ)
    (hs : s ∈ m.eulerTraza t dt fuel tau A V) :
    (0 ≤ s.2.1 ∧ 0 ≤ s.2.2)
    ∧ (tau < t → V ≤ 0 → m.eulerLoop t dt (fuel + 1) tau A V = (0, 0))
    ∧ 0 ≤ m.calcular t :=
  ⟨m.eulerTraza_nonneg t dt fuel tau A V hA hV s hs,
   fun h1 h2 => m.eulerLoop_empty t dt fuel tau A V h1 h2,
   m.calcular_nonneg hv t⟩

/-- Witness for the amended C4 at the valid model
`V0 = 100, C0 = 1/2, r_in = 3, C_in = 1/10, r_out = 1` and the entry
state of its trace. -/
theorem claim_c4_witness :
    ((0 : ℚ) ≤ ((0 : ℚ), (50 : ℚ), (100 : ℚ)).2.1
      ∧ (0 : ℚ) ≤ ((0 : ℚ), (50 : ℚ), (100 : ℚ)).2.2)
    ∧ ((0 : ℚ) < 60 → (100 : ℚ) ≤ 0 →
        (Mezclas.mk 100 (1 / 2) 3 (1 / 10) 1).eulerLoop 60 (1 / 10) (0 + 1)
          0 50 100 = (0, 0))
    ∧ 0 ≤ (Mezclas.mk 100 (1 / 2) 3 (1 / 10) 1).calcular 60 :=
  claim_c4_amended (Mezclas.mk 100 (1 / 2) 3 (1 / 10) 1)
    ⟨by norm_num, by norm_num, by norm_num, by norm_num, by norm_num⟩
    60 (1 / 10) 0 0 50 100 (by norm_num) (by norm_num)
    ((0 : ℚ), (50 : ℚ), (100 : ℚ))
    (by rw [Mezclas.eulerTraza_fuel_zero]; exact List.mem_singleton.mpr rfl)

/-- Backward-indexed unrolling of the integration loop of
`mezclaC4.calcular (1001/10)`: at the state reached after `1001 - i`
iterations the snapped mass alternates between `0` and `1/10`, and the
remaining run returns mass `1/10` in `i` further iterations. -/
theorem mezclaC4_loop : ∀ i : ℕ, i ≤ 1001 →
    mezclaC4.eulerLoop (1001 / 10) (1 / 10) (i + 1) ((1001 - (i : ℚ)) / 10)
      (if i % 2 = 0 then (1 / 10 : ℚ) else 0)
      (max 0 ((2 * (i : ℚ) - 1) / 50000))
    = (1 / 10, i) := by
  intro i
  induction i with
  | zero =>
    intro _
    rw [show ((1001 : ℚ) - ((0 : ℕ) : ℚ)) / 10 = 1001 / 10 from by norm_num,
      mezclaC4.eulerLoop_stop (1001 / 10) (1 / 10) 0 (1001 / 10) _ _
        (lt_irrefl _)]
    norm_num
  | succ i ih =>
    intro hi
    have h0i : (0 : ℚ) ≤ (i : ℚ) := Nat.cast_nonneg i
    have hile : (i : ℚ) ≤ 1000 := by exact_mod_cast (by omega : i ≤ 1000)
    have hcast : ((i + 1 : ℕ) : ℚ) = (i : ℚ) + 1 := by push_cast; ring
    rw [hcast]
    rw [show max 0 ((2 * ((i : ℚ) + 1) - 1) / 50000)
        = (2 * (i : ℚ) + 1) / 50000 from by
      rw [show (2 * ((i : ℚ) + 1) - 1) / 50000 = (2 * (i : ℚ) + 1) / 50000 from by ring]
      exact max_eq_right (by positivity)]
    have htau : ((1001 : ℚ) - ((i : ℚ) + 1)) / 10 < 1001 / 10 := by
      rw [div_lt_div_iff (by norm_num) (by norm_num)]
      nlinarith
    have hVpos : (0 : ℚ) < (2 * (i : ℚ) + 1) / 50000 := by positivity
    have hrin : mezclaC4.r_in = 1 := rfl
    have hCin : mezclaC4.C_in = 1 := rfl
    have hrout : mezclaC4.r_out = 2501 / 2500 := rfl
    have hdtStep : min (1 / 10 : ℚ) (1001 / 10 - (1001 - ((i : ℚ) + 1)) / 10)
        = 1 / 10 := by
      rw [show (1001 : ℚ) / 10 - (1001 - ((i : ℚ) + 1)) / 10 = ((i : ℚ) + 1) / 10
        from by ring]
      apply min_eq_left
      rw [div_le_div_iff (by norm_num) (by norm_num)]
      linarith
    have hVup : (2 * (i : ℚ) + 1) / 50000 + (1 - 2501 / 2500) * (1 / 10)
        = (2 * (i : ℚ) - 1) / 50000 := by ring
    have htauup : ((1001 : ℚ) - ((i : ℚ) + 1)) / 10 + 1 / 10
        = (1001 - (i : ℚ)) / 10 := by ring
    rcases Nat.mod_two_eq_zero_or_one i with hpar | hpar
    · -- i even: the step enters with mass 0 and produces mass 1/10
      rw [if_neg (by omega : ¬ (i + 1) % 2 = 0)]
      rw [mezclaC4.eulerLoop_succ (1001 / 10) (1 / 10) (i + 1)
        ((1001 - ((i : ℚ) + 1)) / 10) 0 ((2 * (i : ℚ) + 1) / 50000) htau hVpos]
      dsimp only
      rw [hrin, hCin, hrout, hdtStep]
      rw [show (0 : ℚ) + (1 * 1 - 2501 / 2500 * (0 / ((2 * (i : ℚ) + 1) / 50000)))
          * (1 / 10) = 1 / 10 from by rw [zero_div]; ring]
      rw [max_eq_right (by norm_num : (0 : ℚ) ≤ 1 / 10)]
      rw [if_neg (by
        rw [abs_of_pos (by norm_num : (0 : ℚ) < 1 / 10)]
        norm_num)]
      rw [hVup, htauup]
      have ih2 := ih (by omega)
      rw [if_pos hpar] at ih2
      rw [ih2]
    · -- i odd: the step enters with mass 1/10, which the clamp sends to 0
      rw [if_pos (by omega : (i + 1) % 2 = 0)]
      rw [mezclaC4.eulerLoop_succ (1001 / 10) (1 / 10) (i + 1)
        ((1001 - ((i : ℚ) + 1)) / 10) (1 / 10) ((2 * (i : ℚ) + 1) / 50000)
        htau hVpos]
      dsimp only
      rw [hrin, hCin, hrout, hdtStep]
      rw [show (1 / 10 : ℚ) / ((2 * (i : ℚ) + 1) / 50000)
          = 5000 / (2 * (i : ℚ) + 1) from by
        rw [div_div_eq_mul_div]
        norm_num]
      rw [max_eq_left (by
        rw [show (1 / 10 : ℚ) + (1 * 1 - 2501 / 2500 * (5000 / (2 * (i : ℚ) + 1)))
            * (1 / 10) = (2 * (2 * (i : ℚ) + 1) - 5002) / (10 * (2 * (i : ℚ) + 1))
          from by field_simp; ring]
        apply div_nonpos_of_nonpos_of_nonneg
        · linarith
        · positivity)]
      rw [if_pos (by norm_num : |(0 : ℚ)| < 1 / 10 ^ 10)]
      rw [hVup, htauup]
      have ih2 := ih (by omega)
      rw [if_neg (by omega : ¬ i % 2 = 0)] at ih2
      rw [ih2]

/-- Claim C4 counterexample: `mezclaC4` is a valid variable-volume model
whose physical volume `V0/(r_out - r_in) = 100.05` vanishes before
`t = 100.1`, yet `evaluate(100.1) = 0.1 ≠ 0`: the volume only reaches 0
inside the final integration step, so the early-exit never fires and the
final mass is the freshly added inflow of the last step. -/
theorem claim_c4_counterexample :
    mezclaC4.Valid
    ∧ ¬ mezclaC4.volumenConstante
    ∧ mezclaC4.V0 / (mezclaC4.r_out - mezclaC4.r_in) ≤ (1001 / 10 : ℚ)
    ∧ mezclaC4.calcular (1001 / 10) ≠ 0 := by
  have hrun := mezclaC4_loop 1001 le_rfl
  rw [show ((1001 : ℚ) - ((1001 : ℕ) : ℚ)) / 10 = 0 from by norm_num,
    show (if (1001 : ℕ) % 2 = 0 then (1 / 10 : ℚ) else 0) = 0 from by norm_num,
    show max 0 ((2 * ((1001 : ℕ) : ℚ) - 1) / 50000) = 2001 / 50000 from by
      rw [show (2 * ((1001 : ℕ) : ℚ) - 1) / 50000 = 2001 / 50000 from by
        push_cast
        ring]
      exact max_eq_right (by norm_num)] at hrun
  have hnc : ¬ mezclaC4.volumenConstante := by
    unfold Mezclas.volumenConstante
    rw [show mezclaC4.r_in - mezclaC4.r_out = -(1 / 2500) from by
        norm_num [mezclaC4],
      abs_neg, abs_of_pos (by norm_num : (0 : ℚ) < 1 / 2500)]
    norm_num
  refine ⟨⟨by norm_num [mezclaC4], by norm_num [mezclaC4],
      by norm_num [mezclaC4], by norm_num [mezclaC4], by norm_num [mezclaC4]⟩,
    hnc,
    by norm_num [mezclaC4],
    ?_⟩
  unfold Mezclas.calcular
  rw [if_neg (by norm_num : ¬ (1001 / 10 : ℚ) ≤ 0),
    if_neg hnc,
    if_neg (by norm_num [mezclaC4] :
      ¬ (mezclaC4.r_in = 0 ∧ mezclaC4.r_out = 0))]
  simp only [Mezclas.euler]
  rw [show min (1 / 10 : ℚ) (1001 / 10 / 1000) = 1 / 10 from
      min_eq_left (by norm_num),
    show (⌈(1001 / 10 : ℚ) / (1 / 10)⌉).toNat + 1 = 1001 + 1 from by
      rw [show (1001 / 10 : ℚ) / (1 / 10) = ((1001 : ℤ) : ℚ) from by norm_num,
        Int.ceil_intCast]
      decide,
    show mezclaC4.C0 * mezclaC4.V0 = 0 from by norm_num [mezclaC4],
    show mezclaC4.V0 = 2001 / 50000 from rfl,
    hrun]
  norm_num

/-- Claim C8 counterexample: with the valid cooling model and
`t_max = 0 ≤ 0` the stepping API returns the one-sample grid `[0]`
without any error, and with `t_max = -1 ≤ 0` the app-level run succeeds:
no `InvalidParameterError` is raised for a non-positive horizon. -/
theorem claim_c8_counterexample :
    (EnfriamientoNewton.mk 90 25 (1 / 10)).Valid
    ∧ (appSimular (.enfriamiento (EnfriamientoNewton.mk 90 25 (1 / 10)))
        (-1)).isOk = true
    ∧ simularT 0 (1 / 10) = [0] := by
  refine ⟨⟨by norm_num, by norm_num⟩, ?_, ?_⟩
  · unfold appSimular
    rw [if_pos (show (Modelo.enfriamiento
        (EnfriamientoNewton.mk 90 25 (1 / 10))).ConstruccionValida from
      ⟨by norm_num, by norm_num⟩)]
    rfl
  · unfold simularT npArange
    rw [show ((0 : ℚ) + 1 / 10) / (1 / 10) = ((1 : ℤ) : ℚ) from by norm_num,
      Int.ceil_intCast]
    rw [show ((1 : ℤ)).toNat = 1 from rfl,
      show List.range 1 = [0] from by decide, List.map_singleton]
    norm_num

/-- Claim C8 (amended): neither simulation API validates `t_max`.  For a
validly constructed model and any `t_max ≤ 0`, the app-level run
succeeds (no error, 1000 grid samples) and the stepping API returns a
grid of at most one sample, again without error. -/
theorem claim_c8_amended (m : Modelo) (hv : m.ConstruccionValida)
    (t_max dt : ℚ) (ht : t_max ≤ 0) (hdt : 0 < dt) :
    (appSimular m t_max).isOk = true ∧ (simularT t_max dt).length ≤ 1 := by
  constructor
  · unfold appSimular
    rw [if_pos hv]
    rfl
  · unfold simularT npArange
    rw [List.length_map, List.length_range]
    have h1 : (t_max + dt) / dt ≤ 1 := by
      rw [div_le_one hdt]
      linarith
    have h2 : ⌈(t_max + dt) / dt⌉ ≤ 1 := by
      calc ⌈(t_max + dt) / dt⌉ ≤ ⌈(1 : ℚ)⌉ := Int.ceil_le_ceil h1
        _ = 1 := Int.ceil_one
    omega

/-- Witness for the amended C8 at the cooling model and `t_max = 0`. -/
theorem claim_c8_witness :
    (appSimular (.enfriamiento (EnfriamientoNewton.mk 90 25 (1 / 10)))
        0).isOk = true
    ∧ (simularT 0 (1 / 10)).length ≤ 1 :=
  claim_c8_amended (.enfriamiento (EnfriamientoNewton.mk 90 25 (1 / 10)))
    ⟨by norm_num, by norm_num⟩ 0 (1 / 10) le_rfl (by norm_num)

/-- Claim C9 counterexample: the stepping grid for `t_max = 1/4` with
`dt = 0.1` is `[0, 0.1, 0.2, 0.3]`: its last sample `0.3` exceeds
`t_max`, so the samples are not all within `[0, t_max]`. -/
theorem claim_c9_counterexample :
    (0 : ℚ) < 1 / 4
    ∧ (3 / 10 : ℚ) ∈ simularT (1 / 4) (1 / 10)
    ∧ ¬ ((3 / 10 : ℚ) ≤ 1 / 4) := by
  refine ⟨by norm_num, ?_, by norm_num⟩
  unfold simularT npArange
  rw [show ((1 / 4 : ℚ) + 1 / 10) / (1 / 10) = 7 / 2 from by norm_num,
    show ⌈(7 / 2 : ℚ)⌉ = 4 from by
      rw [Int.ceil_eq_iff]
      exact ⟨by norm_num, by norm_num⟩]
  refine List.mem_map.mpr ⟨3, ?_, by norm_num⟩
  rw [show ((4 : ℤ)).toNat = 4 from rfl]
  exact List.mem_range.mpr (by norm_num)

/-- Claim C9 (amended): both time grids are strictly increasing and
non-negative; the 1000-point `linspace` grid is bounded by `t_max`, but
the stepping grid `np.arange(0, t_max + dt, dt)` is only bounded by
`t_max + dt` (strictly) and can overshoot `t_max`, as the
counterexample shows. -/
theorem claim_c9_amended (t_max dt : ℚ) (ht : 0 < t_max) (hdt : 0 < dt)
    (x y : ℚ) (hx : x ∈ simularT t_max dt) (hy : y ∈ npLinspace 0 t_max 1000) :
    (simularT t_max dt).Pairwise (· < ·)
    ∧ (0 ≤ x ∧ x < t_max + dt)
    ∧ (npLinspace 0 t_max 1000).Pairwise (· < ·)
    ∧ (0 ≤ y ∧ y ≤ t_max) := by
  have h999 : ((1000 : ℕ) : ℚ) - 1 = 999 := by norm_num
  refine ⟨?_, ?_, ?_, ?_⟩
  · unfold simularT npArange
    rw [List.pairwise_map]
    refine (List.pairwise_lt_range _).imp ?_
    intro a b hab
    exact mul_lt_mul_of_pos_right (by exact_mod_cast hab) hdt
  · unfold simularT npArange at hx
    obtain ⟨i, hi, rfl⟩ := List.mem_map.mp hx
    rw [List.mem_range] at hi
    refine ⟨by positivity, ?_⟩
    have h1 : (i : ℤ) < ⌈(t_max + dt) / dt⌉ := Int.lt_toNat.mp hi
    have h2 : (i : ℚ) < (t_max + dt) / dt := by exact_mod_cast Int.lt_ceil.mp h1
    exact (lt_div_iff hdt).mp h2
  · unfold npLinspace
    rw [List.pairwise_map]
    refine (List.pairwise_lt_range _).imp ?_
    intro a b hab
    have hab' : (a : ℚ) < b := by exact_mod_cast hab
    rw [h999]
    apply add_lt_add_left
    rw [div_lt_div_iff (by norm_num) (by norm_num)]
    nlinarith
  · unfold npLinspace at hy
    obtain ⟨i, hi, rfl⟩ := List.mem_map.mp hy
    rw [List.mem_range] at hi
    have hi' : (i : ℚ) ≤ 999 := by exact_mod_cast (by omega : i ≤ 999)
    rw [h999, sub_zero, zero_add]
    constructor
    · positivity
    · rw [div_le_iff (by norm_num)]
      nlinarith

/-- Witness for the amended C9 at `t_max = 1`, `dt = 0.1` and the sample
`0` of each grid. -/
theorem claim_c9_witness :
    (simularT 1 (1 / 10)).Pairwise (· < ·)
    ∧ ((0 : ℚ) ≤ 0 ∧ (0 : ℚ) < 1 + 1 / 10)
    ∧ (npLinspace 0 1 1000).Pairwise (· < ·)
    ∧ ((0 : ℚ) ≤ 0 ∧ (0 : ℚ) ≤ 1) :=
  claim_c9_amended 1 (1 / 10) (by norm_num) (by norm_num) 0 0
    (by
      unfold simularT npArange
      refine List.mem_map.mpr ⟨0, ?_, by norm_num⟩
      rw [List.mem_range,
        show ((1 : ℚ) + 1 / 10) / (1 / 10) = ((11 : ℤ) : ℚ) from by norm_num,
        Int.ceil_intCast]
      norm_num)
    (by
      unfold npLinspace
      exact List.mem_map.mpr ⟨0, List.mem_range.mpr (by norm_num), by norm_num⟩)

/-- Claim C10: for every validly constructed model and every pair of
equal-length time and value sequences (the empty pair included), the
interpretation routine returns a string and never raises. -/
theorem claim_c10 (m : Modelo) (hv : m.ConstruccionValida) (ts ys : List ℚ)
    (_hlen : ts.length = ys.length) :
    (m.getInterpretacion ts ys).isOk = true := by
  cases m with
  | crecimiento mc =>
    simp only [Modelo.getInterpretacion, CrecimientoExponencial.getInterpretacion]
    split_ifs <;> rfl
  | enfriamiento me => rfl
  | circuito mr =>
    simp only [Modelo.getInterpretacion, CircuitoRL.getInterpretacion]
    split_ifs <;> rfl
  | mezclas mz =>
    have hV0 : 0 < mz.V0 := hv.1
    simp only [Modelo.getInterpretacion, Mezclas.getInterpretacion]
    by_cases hys : ys.length = 0
    · rw [if_pos hys]
      rfl
    · rw [if_neg hys]
      have hne : ys ≠ [] := by
        intro h
        exact hys (by simp [h])
      obtain ⟨v, hvlast⟩ :=
        Option.isSome_iff_exists.mp (List.getLast?_isSome.mpr hne)
      rw [hvlast]
      dsimp only
      by_cases hvc : mz.volumenConstante
      · rw [if_pos hvc]
        by_cases hro : 0 < mz.r_out
        · rw [if_pos hro,
            show pydiv mz.V0 mz.r_out = .ok (mz.V0 / mz.r_out) from by
              unfold pydiv
              rw [if_neg (ne_of_gt hro)],
            show pydiv (mz.r_in * mz.C_in * mz.V0) mz.r_out
                = .ok (mz.r_in * mz.C_in * mz.V0 / mz.r_out) from by
              unfold pydiv
              rw [if_neg (ne_of_gt hro)]]
          dsimp only
          rw [show pydiv (mz.r_in * mz.C_in * mz.V0 / mz.r_out) mz.V0
                = .ok (mz.r_in * mz.C_in * mz.V0 / mz.r_out / mz.V0) from by
              unfold pydiv
              rw [if_neg (ne_of_gt hV0)]]
          rfl
        · rw [if_neg hro]
          rfl
      · rw [if_neg hvc]
        rfl

/-- Witness for C10: the valid cooling model on the empty trajectory. -/
theorem claim_c10_witness :
    ((Modelo.enfriamiento (EnfriamientoNewton.mk 90 25 (1 / 10))).getInterpretacion
      [] []).isOk = true :=
  claim_c10 (.enfriamiento (EnfriamientoNewton.mk 90 25 (1 / 10)))
    ⟨by norm_num, by norm_num⟩ [] [] rfl
